import Mathlib

/-! Verification of the `ai-backend/main.py` service of the
Hiring-Sprint-2025 repository: a FastAPI endpoint that runs a YOLO damage
detector and an EfficientNet severity classifier over a "before"/"after"
pair of vehicle images and assembles a structured damage report.

The two neural networks and the imaging library are external artifacts; they
enter the embedding as oracle parameters (a prediction row per detection, an
abstract image type). The Python orchestration code itself — label mapping,
coordinate normalisation, record and message assembly, exception flow — is
embedded faithfully: machine floats become `ℚ`, Python exceptions become
`Option`/`Except`. -/

namespace VehicleDamage

/-- Configuration constant `IMG_SIZE = (224, 224)` of `main.py`: the fixed
resize target for classifier patches. -/
def IMG_SIZE : Nat × Nat := (224, 224)

/-- Configuration constant `SEVERITY_CLASSES = ["minor", "moderate", "severe"]`
of `main.py`. -/
def SEVERITY_CLASSES : List String := ["minor", "moderate", "severe"]

/-- Scanning loop of `np.argmax`: `argmaxGo vs i best bestv` scans the
remaining entries `vs`, where `i` is the index of the head of `vs` in the full
vector and `(best, bestv)` is the index and value of the running maximum; a
later entry replaces the running maximum only when strictly larger, so the
first occurrence of the maximum wins, as in numpy. -/
def argmaxGo : List ℚ → Nat → Nat → ℚ → Nat
  | [], _, best, _ => best
  | v :: vs, i, best, bestv =>
    if bestv < v then argmaxGo vs (i + 1) i v else argmaxGo vs (i + 1) best bestv

/-- `np.argmax` on a vector, returning the index of the first occurrence of
the maximum entry. numpy raises on an empty vector; the `0` returned for `[]`
here is never used (`predict_severity` checks emptiness first). -/
def npArgmax : List ℚ → Nat
  | [] => 0
  | v :: vs => argmaxGo vs 1 0 v

/-- The function `predict_severity` of `main.py`. The classifier network is an
opaque external artifact, so its output row `preds` is the argument here
(`severity_model.predict(patch_tensor)[0]` in the source). The function takes
`np.argmax` of the row and indexes both `SEVERITY_CLASSES` and the row with
it; `none` models the Python exception on an empty row or an out-of-range
index. -/
def predict_severity (preds : List ℚ) : Option (String × ℚ) :=
  match preds with
  | [] => none
  | _ :: _ =>
    match SEVERITY_CLASSES[npArgmax preds]?, preds[npArgmax preds]? with
    | some label, some conf => some (label, conf)
    | _, _ => none

/-- Python `str.strip()` for the ASCII strings involved: drop leading and
trailing whitespace characters. -/
def pyStrip (s : String) : String :=
  String.mk (((s.data.dropWhile Char.isWhitespace).reverse.dropWhile
    Char.isWhitespace).reverse)

/-- Character loop of Python `str.title()`: an alphabetic character is
upper-cased when the previous character was not alphabetic (start of a word)
and lower-cased otherwise; non-alphabetic characters pass through and start a
new word. `prev` records whether the previous character was alphabetic. -/
def pyTitleGo : List Char → Bool → List Char
  | [], _ => []
  | c :: cs, prev =>
    if c.isAlpha then
      (if prev then c.toLower else c.toUpper) :: pyTitleGo cs true
    else
      c :: pyTitleGo cs false

/-- Python `str.title()`. -/
def pyTitle (s : String) : String :=
  String.mk (pyTitleGo s.data false)

/-- Fuel-driven digit loop of the decimal rendering: peels decimal digits of
`n` onto `acc`, least significant first; the fuel only makes the recursion
structural and never runs out when it starts at least `n + 1`. -/
def decDigitsGo : Nat → Nat → List Nat → List Nat
  | 0, _, acc => acc
  | fuel + 1, n, acc =>
    if n < 10 then n :: acc else decDigitsGo fuel (n / 10) (n % 10 :: acc)

/-- Decimal digit values of a natural number, most significant first. -/
def decDigits (n : Nat) : List Nat :=
  decDigitsGo (n + 1) n []

/-- Decimal rendering of a natural number, as Python `str` inside an f-string
(and as Lean's `Nat.repr`). -/
def natStr (n : Nat) : String :=
  String.mk ((decDigits n).map Nat.digitChar)

/-- One detection returned by the YOLO model: the pixel-space corner box
`box.xyxy[0]` and the class index `int(box.cls[0])`. Confidence is not read by
the service. -/
structure Det where
  x1 : ℚ
  y1 : ℚ
  x2 : ℚ
  y2 : ℚ
  cls : Nat
deriving DecidableEq

/-- The detector result consumed by `run_yolo_on_image`: the detection list
`results.boxes`, the class-name lookup `results.names` (a Python dict, read
with `.get`), and the image dimensions `results.orig_shape = (h, w)`. -/
structure YoloOut where
  boxes : List Det
  names : Nat → Option String
  h : ℚ
  w : ℚ

/-- The `BBox` response schema of `main.py`: a bounding box normalised to the
image dimensions. -/
structure BBox where
  x : ℚ
  y : ℚ
  width : ℚ
  height : ℚ
deriving DecidableEq

/-- The `Damage` response schema of `main.py`. -/
structure Damage where
  id : String
  imageType : String
  area : String
  type : String
  severity : String
  bbox : BBox
deriving DecidableEq

/-- The `AnalyzeResponse` schema of `main.py`. -/
structure AnalyzeResponse where
  inspectionId : String
  damages : List Damage
  message : Option String
deriving DecidableEq

/-- Loop body of `run_yolo_on_image` for the `i`-th detection, given the
severity label already computed for its patch: the record id is
`f"{image_type}-{i}"`, the area label is the constant `"Unknown area"`, the
type label is `results.names.get(cls_id, f"class_{cls_id}").strip().title()`,
and the box is normalised by the image dimensions `w` and `h`. -/
def mkDamage (image_type : String) (i : Nat) (names : Nat → Option String)
    (h w : ℚ) (box : Det) (severity_label : String) : Damage :=
  { id := image_type ++ "-" ++ natStr i
    imageType := image_type
    area := "Unknown area"
    type := pyTitle (pyStrip ((names box.cls).getD ("class_" ++ natStr box.cls)))
    severity := severity_label
    bbox := { x := box.x1 / w
              y := box.y1 / h
              width := (box.x2 - box.x1) / w
              height := (box.y2 - box.y1) / h } }

/-- Detection loop of `run_yolo_on_image` over `enumerate(results.boxes)`,
starting at index `i`. `predsOf` abstracts the external pipeline
`severity_model.predict(crop_patch(pil_img, box))[0]` for each detection, the
networks and image pixels being opaque artifacts; `predsOf box = none` models
an exception raised while cropping or predicting, which aborts the whole
analysis (as an uncaught Python exception does). -/
def runYoloGo (predsOf : Det → Option (List ℚ)) (image_type : String)
    (names : Nat → Option String) (h w : ℚ) : Nat → List Det → Option (List Damage)
  | _, [] => some []
  | i, box :: rest =>
    (predsOf box).bind fun preds =>
      (predict_severity preds).bind fun sc =>
        (runYoloGo predsOf image_type names h w (i + 1) rest).bind fun ds =>
          some (mkDamage image_type i names h w box sc.1 :: ds)

/-- The function `run_yolo_on_image` of `main.py`, with the detector output
`res` and the per-detection classifier oracle `predsOf` supplied as
parameters (both models are external artifacts). -/
def run_yolo_on_image (predsOf : Det → Option (List ℚ)) (res : YoloOut)
    (image_type : String) : Option (List Damage) :=
  runYoloGo predsOf image_type res.names res.h res.w 0 res.boxes

/-- The function `analyze_pair` of `main.py`: run the detector pipeline on the
before image and the after image, concatenate the records, and derive the
summary message from the two detection counts by the if/elif chain of the
source. `predsB`/`predsA` are the classifier oracles for patches of the
before/after image respectively. -/
def analyze_pair (predsB predsA : Det → Option (List ℚ))
    (beforeRes afterRes : YoloOut) : Option AnalyzeResponse :=
  (run_yolo_on_image predsB beforeRes "before").bind fun before_damages =>
    (run_yolo_on_image predsA afterRes "after").bind fun after_damages =>
      some { inspectionId := "AUTO-DEMO-001"
             damages := before_damages ++ after_damages
             message := some (
               if before_damages.length = 0 ∧ after_damages.length = 0 then
                 "No damage detected in either image."
               else if before_damages.length = 0 ∧ after_damages.length > 0 then
                 "No damage detected in BEFORE image."
               else if before_damages.length > 0 ∧ after_damages.length = 0 then
                 "No damage detected in AFTER image."
               else
                 "Damage detected successfully.") }

/-- The 2×2 decision table of §4.4 of the spec, written from the spec's words:
the summary message as a function of the two detection counts alone. -/
def specMessage (nb na : Nat) : String :=
  if nb = 0 ∧ na = 0 then "No damage detected in either image."
  else if nb = 0 then "No damage detected in BEFORE image."
  else if na = 0 then "No damage detected in AFTER image."
  else "Damage detected successfully."

/-- Abstract PIL image: the verification of the cropping control flow only
needs the size; pixel contents stay opaque. -/
structure PImage where
  width : ℚ
  height : ℚ
deriving DecidableEq

/-- Behaviour of `PIL.Image.crop((x1, y1, x2, y2))`: it returns the sub-image
of size `(x2 - x1, y2 - y1)` and raises no error of its own on an empty box. -/
def pilCrop (pil_img : PImage) (x1 y1 x2 y2 : ℚ) : PImage :=
  { width := x2 - x1, height := y2 - y1 }

/-- Modelled from the spec: the external imaging library's `resize`, whose
source is not part of this repository. Following §4.1 ("propagating failures
from malformed crops (zero-area box) as exceptions"), resizing a source image
with no area fails; otherwise it yields an image of the target size. -/
def pilResize (img : PImage) (size : Nat × Nat) : Except String PImage :=
  if img.width ≤ 0 ∨ img.height ≤ 0 then
    Except.error "cannot resize zero-area image"
  else
    Except.ok { width := (size.1 : ℚ), height := (size.2 : ℚ) }

/-- Abstract numpy tensor produced from a patch image; only provenance is
tracked, the numeric contents being external. -/
structure Tensor where
  width : ℚ
  height : ℚ
  batched : Bool
  preprocessed : Bool
deriving DecidableEq

/-- `np.array(crop, dtype=np.float32)`: pure conversion, raises nothing. -/
def npFloatArray (img : PImage) : Tensor :=
  { width := img.width, height := img.height, batched := false, preprocessed := false }

/-- `np.expand_dims(arr, axis=0)`: pure, adds the batch dimension. -/
def npExpandDims (t : Tensor) : Tensor :=
  { t with batched := true }

/-- EfficientNet `preprocess_input`: pure channel normalisation, raises
nothing on a well-formed array. -/
def eff_preprocess (t : Tensor) : Tensor :=
  { t with preprocessed := true }

/-- The function `crop_patch` of `main.py`: crop to the box, resize to
`IMG_SIZE`, convert to a float array, expand dims, preprocess. The source
installs no handler anywhere in this chain, so the embedding is a direct
`Except` composition: a resize failure on a malformed crop reaches the caller
unchanged. -/
def crop_patch (pil_img : PImage) (box_xyxy : ℚ × ℚ × ℚ × ℚ) : Except String Tensor :=
  match box_xyxy with
  | (x1, y1, x2, y2) =>
    match pilResize (pilCrop pil_img x1 y1 x2 y2) IMG_SIZE with
    | Except.error e => Except.error e
    | Except.ok resized => Except.ok (eff_preprocess (npExpandDims (npFloatArray resized)))

/-- The `fastapi.HTTPException` raised by `analyze_endpoint`. -/
structure HTTPException where
  status_code : Nat
  detail : String
deriving DecidableEq

/-- Outcome environment for one request to `POST /analyze`: each field records
how the corresponding side effect of the handler goes, abstracting the
filesystem and the analysis pipeline. `analyzeResult = none` models an
exception raised anywhere inside `analyze_pair` (detection, cropping,
classification); `writeBeforeOk`/`writeAfterOk` cover the `open`/`write` of
the two uploads, `mkdirOk` the `os.makedirs` call.
`beforeFileExists`/`afterFileExists` say whether the temporary files exist
when the `finally` block runs its `os.path.exists` checks, and
`removeBeforeOk`/`removeAfterOk` whether each attempted `os.remove`
succeeds. -/
structure RequestWorld where
  mkdirOk : Bool
  writeBeforeOk : Bool
  writeAfterOk : Bool
  analyzeResult : Option AnalyzeResponse
  beforeFileExists : Bool
  afterFileExists : Bool
  removeBeforeOk : Bool
  removeAfterOk : Bool

/-- Try-block of `analyze_endpoint`: `os.makedirs`, then the two temporary
paths are bound, then each upload is written, then `analyze_pair` runs; the
first failing step aborts the block with its exception. -/
def endpointTry (w : RequestWorld) : Except Unit AnalyzeResponse :=
  if w.mkdirOk = false then Except.error ()
  else if w.writeBeforeOk = false then Except.error ()
  else if w.writeAfterOk = false then Except.error ()
  else
    match w.analyzeResult with
    | none => Except.error ()
    | some r => Except.ok r

/-- Finally-block of `analyze_endpoint`: for each of the two temporary files,
report whether `os.remove` is attempted. The path variables are bound in
`locals()` exactly when `os.makedirs` has succeeded (they are assigned
immediately after it, before anything else can fail), so deletion is attempted
for each path that is bound and exists on disk; a failing `os.remove` is
swallowed by the inner `try/except: pass`, so the removal outcomes influence
nothing. -/
def endpointFinally (w : RequestWorld) : Bool × Bool :=
  (w.mkdirOk && w.beforeFileExists, w.mkdirOk && w.afterFileExists)

/-- The handler `analyze_endpoint` of `main.py`: the response, paired with
which temporary-file deletions were attempted. Any exception in the try-block
is caught and re-raised as `HTTPException(status_code=500, detail="AI analysis
failed.")`; the finally-block runs on every path out of the handler. -/
def analyze_endpoint (w : RequestWorld) :
    Except HTTPException AnalyzeResponse × (Bool × Bool) :=
  match endpointTry w with
  | Except.error _ =>
    (Except.error { status_code := 500, detail := "AI analysis failed." },
      endpointFinally w)
  | Except.ok r => (Except.ok r, endpointFinally w)

/-- Concrete class-name lookup used for evaluating the theorems: class `0` is
mapped (to a name with stray whitespace and lower case, as a detector may
ship), every other class index is unmapped. -/
def demoNames : Nat → Option String :=
  fun c => if c = 0 then some " scratch mark " else none

/-- Concrete detection used for evaluation: a mapped class. -/
def demoBoxB : Det := { x1 := 1, y1 := 2, x2 := 3, y2 := 4, cls := 0 }

/-- Concrete detection used for evaluation: an unmapped class index. -/
def demoBoxA : Det := { x1 := 0, y1 := 0, x2 := 4, y2 := 4, cls := 9 }

/-- Concrete detector output for the before image: one detection on an 8×8
image. -/
def demoBefore : YoloOut := { boxes := [demoBoxB], names := demoNames, h := 8, w := 8 }

/-- Concrete detector output for the after image: one detection on an 8×8
image. -/
def demoAfter : YoloOut := { boxes := [demoBoxA], names := demoNames, h := 8, w := 8 }

/-- Concrete detector output with no detections. -/
def demoEmpty : YoloOut := { boxes := [], names := demoNames, h := 8, w := 8 }

/-- Concrete classifier oracle used for evaluation: every patch yields the
prediction row `[1/10, 6/10, 3/10]`, whose top entry is class 1
("moderate"). -/
def demoPreds : Det → Option (List ℚ) :=
  fun _ => some [1/10, 6/10, 3/10]

/-- Concrete request environment used for evaluation: the after-image write
fails, both temporary files exist at cleanup time, and the first removal
fails. -/
def demoWorld : RequestWorld :=
  { mkdirOk := true
    writeBeforeOk := true
    writeAfterOk := false
    analyzeResult := none
    beforeFileExists := true
    afterFileExists := true
    removeBeforeOk := false
    removeAfterOk := true }

/-- The damage record the service produces for `demoBoxB` on the before
image. -/
def demoDamageB : Damage :=
  { id := "before-0"
    imageType := "before"
    area := "Unknown area"
    type := "Scratch Mark"
    severity := "moderate"
    bbox := { x := 1/8, y := 1/4, width := 1/4, height := 1/4 } }

/-- The damage record the service produces for `demoBoxA` on the after
image. -/
def demoDamageA : Damage :=
  { id := "after-0"
    imageType := "after"
    area := "Unknown area"
    type := "Class_9"
    severity := "moderate"
    bbox := { x := 0, y := 0, width := 1/2, height := 1/2 } }

/-- The full response the service produces for the demo pair. -/
def demoResp : AnalyzeResponse :=
  { inspectionId := "AUTO-DEMO-001"
    damages := [demoDamageB, demoDamageA]
    message := some "Damage detected successfully." }

/-! Auxiliary lemmas about the decimal rendering used in record ids.

The Batteries rational arithmetic definitions are `@[irreducible]`, which
blocks `decide` from evaluating the embedding on the concrete inputs above;
they are restored to normal transparency for this development. -/

attribute [local semireducible] Rat.mul Rat.inv Rat.add Rat.sub

theorem decDigitsGo_acc : ∀ (f n : Nat) (acc : List Nat),
    decDigitsGo f n acc = decDigitsGo f n [] ++ acc := by
  intro f
  induction f with
  | zero => intro n acc; rfl
  | succ f ih =>
    intro n acc
    simp only [decDigitsGo]
    by_cases hn : n < 10
    · simp [hn]
    · simp only [hn, ite_false, if_false]
      rw [ih (n / 10) (n % 10 :: acc), ih (n / 10) [n % 10], List.append_assoc]
      rfl

theorem decDigitsGo_fuel : ∀ (n f₁ f₂ : Nat), n < f₁ → n < f₂ →
    decDigitsGo f₁ n [] = decDigitsGo f₂ n [] := by
  intro n
  induction n using Nat.strong_induction_on with
  | _ n ih =>
    intro f₁ f₂ h₁ h₂
    cases f₁ with
    | zero => omega
    | succ f₁ =>
      cases f₂ with
      | zero => omega
      | succ f₂ =>
        simp only [decDigitsGo]
        by_cases hn : n < 10
        · simp [hn]
        · simp only [hn, ite_false, if_false]
          have hd : n / 10 < n := Nat.div_lt_self (by omega) (by omega)
          rw [decDigitsGo_acc f₁, decDigitsGo_acc f₂,
            ih (n / 10) hd f₁ f₂ (by omega) (by omega)]

theorem decDigits_eq (n : Nat) :
    decDigits n = if n < 10 then [n] else decDigits (n / 10) ++ [n % 10] := by
  show decDigitsGo (n + 1) n [] = if n < 10 then [n] else decDigits (n / 10) ++ [n % 10]
  simp only [decDigitsGo]
  by_cases hn : n < 10
  · simp [hn]
  · simp only [hn, ite_false, if_false]
    rw [decDigitsGo_acc n]
    rw [decDigitsGo_fuel (n / 10) n (n / 10 + 1) (by omega) (by omega)]
    rfl

theorem decDigits_ne_nil (n : Nat) : decDigits n ≠ [] := by
  rw [decDigits_eq]
  split <;> simp

theorem decDigits_lt10 (n : Nat) : ∀ d ∈ decDigits n, d < 10 := by
  induction n using Nat.strong_induction_on with
  | _ n ih =>
    rw [decDigits_eq]
    split
    · next h => intro d hd; simp only [List.mem_singleton] at hd; omega
    · next h =>
      intro d hd
      simp only [List.mem_append, List.mem_singleton] at hd
      rcases hd with hd | hd
      · exact ih (n / 10) (Nat.div_lt_self (by omega) (by omega)) d hd
      · omega

theorem decDigits_inj : ∀ a : Nat, ∀ b : Nat, decDigits a = decDigits b → a = b := by
  intro a
  induction a using Nat.strong_induction_on with
  | _ a ih =>
    intro b hab
    rw [decDigits_eq a, decDigits_eq b] at hab
    by_cases ha : a < 10 <;> by_cases hb : b < 10 <;>
      simp only [ha, hb, if_true, if_false, ite_true, ite_false, if_pos, if_neg,
        not_false_iff] at hab
    · exact List.singleton_injective hab
    · exfalso
      have hlen := congrArg List.length hab
      simp only [List.length_singleton, List.length_append] at hlen
      have h0 : (decDigits (b / 10)).length = 0 := by omega
      exact decDigits_ne_nil (b / 10) (List.length_eq_zero.mp h0)
    · exfalso
      have hlen := congrArg List.length hab
      simp only [List.length_singleton, List.length_append] at hlen
      have h0 : (decDigits (a / 10)).length = 0 := by omega
      exact decDigits_ne_nil (a / 10) (List.length_eq_zero.mp h0)
    · have hlen : (decDigits (a / 10)).length = (decDigits (b / 10)).length := by
        have hl2 := congrArg List.length hab
        simp only [List.length_append, List.length_singleton] at hl2
        omega
      obtain ⟨hdiv, hmod⟩ := List.append_inj hab hlen
      have h1 : a / 10 = b / 10 :=
        ih (a / 10) (Nat.div_lt_self (by omega) (by omega)) (b / 10) hdiv
      have h2 : a % 10 = b % 10 := List.singleton_injective hmod
      omega

theorem digitChar_inj10 : ∀ a < 10, ∀ b < 10, Nat.digitChar a = Nat.digitChar b → a = b := by
  decide

theorem digitChar_class : ∀ d < 10,
    (Nat.digitChar d).isAlpha = false ∧ (Nat.digitChar d).isWhitespace = false := by
  decide

theorem map_digitChar_inj : ∀ l₁ l₂ : List Nat, (∀ d ∈ l₁, d < 10) → (∀ d ∈ l₂, d < 10) →
    l₁.map Nat.digitChar = l₂.map Nat.digitChar → l₁ = l₂ := by
  intro l₁
  induction l₁ with
  | nil =>
    intro l₂ _ _ hm
    cases l₂ with
    | nil => rfl
    | cons b t => simp at hm
  | cons a t ih =>
    intro l₂ h1 h2 hm
    cases l₂ with
    | nil => simp at hm
    | cons b t₂ =>
      simp only [List.map_cons, List.cons.injEq] at hm
      obtain ⟨hab, ht⟩ := hm
      have hae : a = b :=
        digitChar_inj10 a (h1 a (List.mem_cons_self a t)) b (h2 b (List.mem_cons_self b t₂)) hab
      subst hae
      rw [ih t₂ (fun d hd => h1 d (List.mem_cons_of_mem a hd))
        (fun d hd => h2 d (List.mem_cons_of_mem a hd)) ht]

theorem string_data_inj {s t : String} (hst : s.data = t.data) : s = t :=
  String.ext hst

theorem natStr_inj : ∀ a b : Nat, natStr a = natStr b → a = b := by
  intro a b hab
  have hd : (decDigits a).map Nat.digitChar = (decDigits b).map Nat.digitChar :=
    congrArg String.data hab
  exact decDigits_inj a b (map_digitChar_inj _ _ (decDigits_lt10 a) (decDigits_lt10 b) hd)

theorem natStr_data (n : Nat) : (natStr n).data = (decDigits n).map Nat.digitChar := rfl

theorem natStr_chars (n : Nat) : ∀ c ∈ (natStr n).data,
    c.isAlpha = false ∧ c.isWhitespace = false := by
  intro c hc
  rw [natStr_data] at hc
  obtain ⟨d, hd, rfl⟩ := List.mem_map.mp hc
  exact digitChar_class d (decDigits_lt10 n d hd)

theorem natStr_data_ne_nil (n : Nat) : (natStr n).data ≠ [] := by
  rw [natStr_data]
  intro hc
  exact decDigits_ne_nil n (List.map_eq_nil_iff.mp hc)

theorem recordId_inj (t : String) (i j : Nat)
    (hij : t ++ "-" ++ natStr i = t ++ "-" ++ natStr j) : i = j := by
  have hd := congrArg String.data hij
  simp only [String.data_append, List.append_assoc] at hd
  have h2 := List.append_cancel_left hd
  have h3 := List.append_cancel_left h2
  exact natStr_inj i j (string_data_inj h3)

theorem before_id_ne_after_id (i j : Nat) :
    "before" ++ "-" ++ natStr i ≠ "after" ++ "-" ++ natStr j := by
  intro hij
  have hd := congrArg String.data hij
  have hb : "before".data = ['b', 'e', 'f', 'o', 'r', 'e'] := rfl
  have ha : "after".data = ['a', 'f', 't', 'e', 'r'] := rfl
  simp only [String.data_append, hb, ha, List.cons_append, List.append_assoc] at hd
  injection hd with h1 _
  exact absurd h1 (by decide)

/-! Auxiliary lemmas about the Python string transformations. -/

theorem dropWhile_ws_eq_self (l : List Char) (hl : ∀ c ∈ l, c.isWhitespace = false) :
    l.dropWhile Char.isWhitespace = l := by
  cases l with
  | nil => rfl
  | cons a t => simp [List.dropWhile_cons, hl a (List.mem_cons_self a t)]

theorem pyStrip_eq_self (s : String) (hs : ∀ c ∈ s.data, c.isWhitespace = false) :
    pyStrip s = s := by
  unfold pyStrip
  rw [dropWhile_ws_eq_self s.data hs,
    dropWhile_ws_eq_self s.data.reverse (fun c hc => hs c (List.mem_reverse.mp hc)),
    List.reverse_reverse]

theorem pyTitleGo_nonalpha (l : List Char) (hl : ∀ c ∈ l, c.isAlpha = false) :
    ∀ b : Bool, pyTitleGo l b = l := by
  induction l with
  | nil => intro b; rfl
  | cons a t ih =>
    intro b
    rw [pyTitleGo]
    simp only [hl a (List.mem_cons_self a t), Bool.false_eq_true, if_false,
      ite_false]
    rw [ih (fun c hc => hl c (List.mem_cons_of_mem a hc)) false]

theorem class_fallback_title (n : Nat) :
    pyTitle (pyStrip ("class_" ++ natStr n)) = "Class_" ++ natStr n := by
  have hdata : ("class_" ++ natStr n).data =
      'c' :: 'l' :: 'a' :: 's' :: 's' :: '_' :: (natStr n).data := by
    rw [String.data_append]
    rfl
  have hnws : ∀ c ∈ ("class_" ++ natStr n).data, c.isWhitespace = false := by
    rw [hdata]
    intro c hc
    simp only [List.mem_cons] at hc
    rcases hc with rfl | rfl | rfl | rfl | rfl | rfl | hc
    · rfl
    · rfl
    · rfl
    · rfl
    · rfl
    · rfl
    · exact (natStr_chars n c hc).2
  rw [pyStrip_eq_self _ hnws]
  apply string_data_inj
  show pyTitleGo ("class_" ++ natStr n).data false = ("Class_" ++ natStr n).data
  rw [hdata]
  have hstep : pyTitleGo ('c' :: 'l' :: 'a' :: 's' :: 's' :: '_' :: (natStr n).data) false =
      'C' :: 'l' :: 'a' :: 's' :: 's' :: '_' :: pyTitleGo (natStr n).data false := rfl
  rw [hstep, pyTitleGo_nonalpha (natStr n).data (fun c hc => (natStr_chars n c hc).1) false]
  rw [String.data_append]
  rfl

/-! Auxiliary lemmas about the detection loop and the pair analyzer. -/

theorem runYoloGo_length (p : Det → Option (List ℚ)) (t : String)
    (nm : Nat → Option String) (h w : ℚ) :
    ∀ (bs : List Det) (i : Nat) (l : List Damage),
      runYoloGo p t nm h w i bs = some l → l.length = bs.length := by
  intro bs
  induction bs with
  | nil =>
    intro i l hl
    simp only [runYoloGo, Option.some.injEq] at hl
    simp [← hl]
  | cons b rest ih =>
    intro i l hl
    simp only [runYoloGo, Option.bind_eq_some, Option.some.injEq] at hl
    obtain ⟨preds, hp, sc, hs, ds, hds, hl⟩ := hl
    subst hl
    simp [ih (i + 1) ds hds]

theorem runYoloGo_mem (p : Det → Option (List ℚ)) (t : String)
    (nm : Nat → Option String) (h w : ℚ) :
    ∀ (bs : List Det) (i : Nat) (l : List Damage),
      runYoloGo p t nm h w i bs = some l →
      ∀ d ∈ l, ∃ b ∈ bs, ∃ k sev, d = mkDamage t k nm h w b sev := by
  intro bs
  induction bs with
  | nil =>
    intro i l hl d hd
    simp only [runYoloGo, Option.some.injEq] at hl
    subst hl
    simp at hd
  | cons b rest ih =>
    intro i l hl d hd
    simp only [runYoloGo, Option.bind_eq_some, Option.some.injEq] at hl
    obtain ⟨preds, hp, sc, hs, ds, hds, hl⟩ := hl
    subst hl
    rcases List.mem_cons.mp hd with hdh | hdt
    · exact ⟨b, List.mem_cons_self b rest, i, sc.1, hdh⟩
    · obtain ⟨b', hb', k, sev, hd'⟩ := ih (i + 1) ds hds d hdt
      exact ⟨b', List.mem_cons_of_mem b hb', k, sev, hd'⟩

theorem runYoloGo_ids (p : Det → Option (List ℚ)) (t : String)
    (nm : Nat → Option String) (h w : ℚ) :
    ∀ (bs : List Det) (i : Nat) (l : List Damage),
      runYoloGo p t nm h w i bs = some l →
      l.map Damage.id = (List.range' i bs.length).map (fun k => t ++ "-" ++ natStr k) := by
  intro bs
  induction bs with
  | nil =>
    intro i l hl
    simp only [runYoloGo, Option.some.injEq] at hl
    subst hl
    rfl
  | cons b rest ih =>
    intro i l hl
    simp only [runYoloGo, Option.bind_eq_some, Option.some.injEq] at hl
    obtain ⟨preds, hp, sc, hs, ds, hds, hl⟩ := hl
    subst hl
    rw [List.length_cons, List.range'_succ, List.map_cons, List.map_cons,
      ih (i + 1) ds hds]
    rfl

theorem run_yolo_length (p : Det → Option (List ℚ)) (res : YoloOut) (t : String)
    (l : List Damage) (hl : run_yolo_on_image p res t = some l) :
    l.length = res.boxes.length :=
  runYoloGo_length p t res.names res.h res.w res.boxes 0 l hl

theorem run_yolo_mem (p : Det → Option (List ℚ)) (res : YoloOut) (t : String)
    (l : List Damage) (hl : run_yolo_on_image p res t = some l) :
    ∀ d ∈ l, ∃ b ∈ res.boxes, ∃ k sev, d = mkDamage t k res.names res.h res.w b sev :=
  runYoloGo_mem p t res.names res.h res.w res.boxes 0 l hl

theorem pyMessage_eq_spec (nb na : Nat) :
    (if nb = 0 ∧ na = 0 then "No damage detected in either image."
     else if nb = 0 ∧ na > 0 then "No damage detected in BEFORE image."
     else if nb > 0 ∧ na = 0 then "No damage detected in AFTER image."
     else "Damage detected successfully.") = specMessage nb na := by
  unfold specMessage
  split_ifs <;> first | rfl | omega

theorem analyze_pair_inv (pB pA : Det → Option (List ℚ)) (rB rA : YoloOut)
    (resp : AnalyzeResponse) (hres : analyze_pair pB pA rB rA = some resp) :
    ∃ b a, run_yolo_on_image pB rB "before" = some b ∧
      run_yolo_on_image pA rA "after" = some a ∧
      resp = { inspectionId := "AUTO-DEMO-001", damages := b ++ a,
               message := some (specMessage b.length a.length) } := by
  unfold analyze_pair at hres
  rw [Option.bind_eq_some] at hres
  obtain ⟨b, hb, hres⟩ := hres
  rw [Option.bind_eq_some] at hres
  obtain ⟨a, ha, hres⟩ := hres
  rw [Option.some.injEq] at hres
  refine ⟨b, a, hb, ha, ?_⟩
  rw [← hres, pyMessage_eq_spec]

/-! Auxiliary lemmas about `np.argmax`. -/

theorem argmaxGo_spec (L : List ℚ) :
    ∀ (vs : List ℚ) (i best : Nat) (bestv : ℚ),
      L.drop i = vs → L[best]? = some bestv →
      (∀ j, j < i → ∀ v, L[j]? = some v → v ≤ bestv) →
      ∃ m, L[argmaxGo vs i best bestv]? = some m ∧ ∀ (j : Nat) (v : ℚ), L[j]? = some v → v ≤ m := by
  intro vs
  induction vs with
  | nil =>
    intro i best bestv hdrop hbest hinv
    refine ⟨bestv, hbest, ?_⟩
    intro j v hv
    have hlen : L.length ≤ i := by
      have hd := congrArg List.length hdrop
      simp only [List.length_drop, List.length_nil] at hd
      omega
    obtain ⟨hj, _⟩ := List.getElem?_eq_some.mp hv
    exact hinv j (by omega) v hv
  | cons v vs ih =>
    intro i best bestv hdrop hbest hinv
    have hvi : L[i]? = some v := by
      have h0 : (L.drop i)[0]? = some v := by rw [hdrop]; simp
      rw [List.getElem?_drop] at h0
      simpa using h0
    have hdrop' : L.drop (i + 1) = vs := by
      rw [← List.drop_drop 1 i L, hdrop]
      rfl
    rw [argmaxGo]
    by_cases hc : bestv < v
    · rw [if_pos hc]
      apply ih (i + 1) i v hdrop' hvi
      intro j hj u hu
      rcases Nat.lt_succ_iff_lt_or_eq.mp hj with hj' | rfl
      · exact le_trans (hinv j hj' u hu) (le_of_lt hc)
      · rw [hvi] at hu
        exact le_of_eq (Option.some.inj hu).symm
    · rw [if_neg hc]
      apply ih (i + 1) best bestv hdrop' hbest
      intro j hj u hu
      rcases Nat.lt_succ_iff_lt_or_eq.mp hj with hj' | rfl
      · exact hinv j hj' u hu
      · rw [hvi] at hu
        have huv : u = v := (Option.some.inj hu).symm
        rw [huv]
        exact le_of_not_lt hc

theorem npArgmax_spec (l : List ℚ) (hl : l ≠ []) :
    ∃ m, l[npArgmax l]? = some m ∧ ∀ (j : Nat) (v : ℚ), l[j]? = some v → v ≤ m := by
  cases l with
  | nil => exact absurd rfl hl
  | cons x xs =>
    rw [npArgmax]
    apply argmaxGo_spec (x :: xs) xs 1 0 x rfl (by simp)
    intro j hj v hv
    have hj0 : j = 0 := by omega
    subst hj0
    simp only [List.getElem?_cons_zero, Option.some.injEq] at hv
    exact le_of_eq hv.symm

/-! The claims. -/

/-- C1: for every pair of analyzed images — any detector outputs and any
classifier oracles — the summary message of the analysis result is exactly
the value of the 2×2 decision table `specMessage` on the two detection
counts, and in particular is always one of its four fixed strings; no other
message is ever produced. -/
theorem analyze_pair_message_table (pB pA : Det → Option (List ℚ)) (rB rA : YoloOut)
    (resp : AnalyzeResponse) (hres : analyze_pair pB pA rB rA = some resp) :
    resp.message = some (specMessage rB.boxes.length rA.boxes.length) ∧
    (resp.message = some "No damage detected in either image." ∨
     resp.message = some "No damage detected in BEFORE image." ∨
     resp.message = some "No damage detected in AFTER image." ∨
     resp.message = some "Damage detected successfully.") := by
  obtain ⟨b, a, hb, ha, rfl⟩ := analyze_pair_inv pB pA rB rA resp hres
  constructor
  · show some (specMessage b.length a.length) = _
    rw [run_yolo_length pB rB "before" b hb, run_yolo_length pA rA "after" a ha]
  · show some (specMessage b.length a.length) = _ ∨ _
    unfold specMessage
    split_ifs
    · exact Or.inl rfl
    · exact Or.inr (Or.inl rfl)
    · exact Or.inr (Or.inr (Or.inl rfl))
    · exact Or.inr (Or.inr (Or.inr rfl))

/-- C1 witness: the demo pair has one detection on each side, and the theorem
yields its message. -/
theorem analyze_pair_message_table_witness :
    demoResp.message = some (specMessage demoBefore.boxes.length demoAfter.boxes.length) ∧
    (demoResp.message = some "No damage detected in either image." ∨
     demoResp.message = some "No damage detected in BEFORE image." ∨
     demoResp.message = some "No damage detected in AFTER image." ∨
     demoResp.message = some "Damage detected successfully.") :=
  analyze_pair_message_table demoPreds demoPreds demoBefore demoAfter demoResp (by decide)

/-- C2: the damages sequence of every analysis result is the before-image
records followed by the after-image records: its length is the sum of the two
detection counts, and any record tagged "before" sits strictly earlier than
any record tagged "after". -/
theorem analyze_pair_order (pB pA : Det → Option (List ℚ)) (rB rA : YoloOut)
    (resp : AnalyzeResponse) (hres : analyze_pair pB pA rB rA = some resp) :
    resp.damages.length = rB.boxes.length + rA.boxes.length ∧
    ∀ (i j : Nat) (hi : i < resp.damages.length) (hj : j < resp.damages.length),
      (resp.damages[i]).imageType = "before" →
      (resp.damages[j]).imageType = "after" → i < j := by
  obtain ⟨b, a, hb, ha, rfl⟩ := analyze_pair_inv pB pA rB rA resp hres
  have hbN := run_yolo_length pB rB "before" b hb
  have haN := run_yolo_length pA rA "after" a ha
  have hbT : ∀ d ∈ b, d.imageType = "before" := by
    intro d hd
    obtain ⟨bx, _, k, sev, rfl⟩ := run_yolo_mem pB rB "before" b hb d hd
    rfl
  have haT : ∀ d ∈ a, d.imageType = "after" := by
    intro d hd
    obtain ⟨bx, _, k, sev, rfl⟩ := run_yolo_mem pA rA "after" a ha d hd
    rfl
  constructor
  · show (b ++ a).length = _
    rw [List.length_append, hbN, haN]
  · intro i j hi hj hiB hjA
    have hiLt : i < b.length := by
      by_contra hge
      push_neg at hge
      have hlen2 : i - b.length < a.length := by
        simp only [List.length_append] at hi
        omega
      have hia : (b ++ a)[i] = a[i - b.length] :=
        List.getElem_append_right hge
      have hAfter : (b ++ a)[i].imageType = "after" :=
        hia ▸ haT _ (List.getElem_mem _)
      rw [hiB] at hAfter
      exact absurd hAfter (by decide)
    have hjGe : b.length ≤ j := by
      by_contra hlt
      push_neg at hlt
      have hjb : (b ++ a)[j] = b[j] := List.getElem_append_left hlt
      have hBefore : (b ++ a)[j].imageType = "before" :=
        hjb ▸ hbT _ (List.getElem_mem _)
      rw [hjA] at hBefore
      exact absurd hBefore (by decide)
    omega

/-- C2 witness: on the demo pair the theorem gives the length equation. -/
theorem analyze_pair_order_witness :
    demoResp.damages.length = demoBefore.boxes.length + demoAfter.boxes.length :=
  (analyze_pair_order demoPreds demoPreds demoBefore demoAfter demoResp (by decide)).1

/-- C7: within any analysis result, the identifiers of the damage records are
pairwise distinct, whatever the numbers of before and after detections. -/
theorem analyze_pair_ids_nodup (pB pA : Det → Option (List ℚ)) (rB rA : YoloOut)
    (resp : AnalyzeResponse) (hres : analyze_pair pB pA rB rA = some resp) :
    (resp.damages.map Damage.id).Nodup := by
  obtain ⟨b, a, hb, ha, rfl⟩ := analyze_pair_inv pB pA rB rA resp hres
  show ((b ++ a).map Damage.id).Nodup
  rw [List.map_append,
    runYoloGo_ids pB "before" rB.names rB.h rB.w rB.boxes 0 b hb,
    runYoloGo_ids pA "after" rA.names rA.h rA.w rA.boxes 0 a ha]
  apply List.Nodup.append
  · exact List.Nodup.map (fun i j hij => recordId_inj "before" i j hij)
      (List.nodup_range' 0 rB.boxes.length)
  · exact List.Nodup.map (fun i j hij => recordId_inj "after" i j hij)
      (List.nodup_range' 0 rA.boxes.length)
  · intro x hxb hxa
    obtain ⟨i, _, rfl⟩ := List.mem_map.mp hxb
    obtain ⟨j, _, hij⟩ := List.mem_map.mp hxa
    exact before_id_ne_after_id i j hij.symm

/-- C7 witness: the theorem applied to the demo pair. -/
theorem analyze_pair_ids_nodup_witness : (demoResp.damages.map Damage.id).Nodup :=
  analyze_pair_ids_nodup demoPreds demoPreds demoBefore demoAfter demoResp (by decide)

/-- C8: for every request the inspection identifier of the analysis result is
the fixed placeholder "AUTO-DEMO-001" — independent of the input, hence not
unique per request — and the area label of every damage record is the
constant placeholder "Unknown area". -/
theorem analyze_pair_placeholders (pB pA : Det → Option (List ℚ)) (rB rA : YoloOut)
    (resp : AnalyzeResponse) (hres : analyze_pair pB pA rB rA = some resp) :
    resp.inspectionId = "AUTO-DEMO-001" ∧
    ∀ d ∈ resp.damages, d.area = "Unknown area" := by
  obtain ⟨b, a, hb, ha, rfl⟩ := analyze_pair_inv pB pA rB rA resp hres
  refine ⟨rfl, ?_⟩
  intro d hd
  rcases List.mem_append.mp hd with hd | hd
  · obtain ⟨bx, _, k, sev, rfl⟩ := run_yolo_mem pB rB "before" b hb d hd
    rfl
  · obtain ⟨bx, _, k, sev, rfl⟩ := run_yolo_mem pA rA "after" a ha d hd
    rfl

/-- C8 witness: the theorem applied to the demo pair gives the placeholder
inspection id. -/
theorem analyze_pair_placeholders_witness : demoResp.inspectionId = "AUTO-DEMO-001" :=
  (analyze_pair_placeholders demoPreds demoPreds demoBefore demoAfter demoResp (by decide)).1

/-- C3: for every detection whose pixel box is valid detector output
(`0 ≤ x1 ≤ x2 ≤ w`, `0 ≤ y1 ≤ y2 ≤ h`, positive dimensions), the normalised
bounding box of the produced record satisfies `0 ≤ x`, `0 ≤ y`,
`width, height ≥ 0`, `x + width ≤ 1` and `y + height ≤ 1`. -/
theorem run_yolo_bbox_invariant (p : Det → Option (List ℚ)) (res : YoloOut)
    (t : String) (l : List Damage) (hw : 0 < res.w) (hh : 0 < res.h)
    (hboxes : ∀ b ∈ res.boxes, 0 ≤ b.x1 ∧ b.x1 ≤ b.x2 ∧ b.x2 ≤ res.w ∧
      0 ≤ b.y1 ∧ b.y1 ≤ b.y2 ∧ b.y2 ≤ res.h)
    (hrun : run_yolo_on_image p res t = some l) :
    ∀ d ∈ l, 0 ≤ d.bbox.x ∧ 0 ≤ d.bbox.y ∧ 0 ≤ d.bbox.width ∧ 0 ≤ d.bbox.height ∧
      d.bbox.x + d.bbox.width ≤ 1 ∧ d.bbox.y + d.bbox.height ≤ 1 := by
  intro d hd
  obtain ⟨b, hbmem, k, sev, rfl⟩ := run_yolo_mem p res t l hrun d hd
  obtain ⟨hx1, hx12, hx2w, hy1, hy12, hy2h⟩ := hboxes b hbmem
  refine ⟨?_, ?_, ?_, ?_, ?_, ?_⟩
  · exact div_nonneg hx1 (le_of_lt hw)
  · exact div_nonneg hy1 (le_of_lt hh)
  · exact div_nonneg (sub_nonneg.mpr hx12) (le_of_lt hw)
  · exact div_nonneg (sub_nonneg.mpr hy12) (le_of_lt hh)
  · show b.x1 / res.w + (b.x2 - b.x1) / res.w ≤ 1
    rw [div_add_div_same]
    have hsum : b.x1 + (b.x2 - b.x1) = b.x2 := by ring
    rw [hsum]
    exact (div_le_one hw).mpr hx2w
  · show b.y1 / res.h + (b.y2 - b.y1) / res.h ≤ 1
    rw [div_add_div_same]
    have hsum : b.y1 + (b.y2 - b.y1) = b.y2 := by ring
    rw [hsum]
    exact (div_le_one hh).mpr hy2h

/-- C3 witness: the invariant evaluated at the demo before-image record. -/
theorem run_yolo_bbox_invariant_witness :
    0 ≤ demoDamageB.bbox.x ∧ 0 ≤ demoDamageB.bbox.y ∧ 0 ≤ demoDamageB.bbox.width ∧
    0 ≤ demoDamageB.bbox.height ∧ demoDamageB.bbox.x + demoDamageB.bbox.width ≤ 1 ∧
    demoDamageB.bbox.y + demoDamageB.bbox.height ≤ 1 :=
  run_yolo_bbox_invariant demoPreds demoBefore "before" [demoDamageB]
    (by decide) (by decide) (by decide) (by decide) demoDamageB (by decide)

/-- C6 counterexample: class index 9 is unmapped in the demo lookup, yet the
type label placed in the record is "Class_9" — the `.strip().title()` of the
fallback — and not the claimed raw string "class_9". -/
theorem run_yolo_fallback_cex :
    (run_yolo_on_image demoPreds demoAfter "after").map (fun l => l.map Damage.type) =
      some ["Class_9"] ∧
    demoAfter.names demoBoxA.cls = none ∧
    ("Class_9" : String) ≠ "class_9" := by
  refine ⟨by decide, by decide, by decide⟩

/-- C6 amended: for a detection whose class index is unmapped, the label
placed in the record is the generic fallback `"class_<id>"` stripped and
title-cased, i.e. `"Class_<id>"`; for a mapped index it is the lookup's name
stripped and title-cased. -/
theorem run_yolo_class_label (p : Det → Option (List ℚ)) (res : YoloOut)
    (t : String) (l : List Damage) (hrun : run_yolo_on_image p res t = some l) :
    ∀ d ∈ l, ∃ b ∈ res.boxes,
      (res.names b.cls = none → d.type = "Class_" ++ natStr b.cls) ∧
      (∀ nmv, res.names b.cls = some nmv → d.type = pyTitle (pyStrip nmv)) := by
  intro d hd
  obtain ⟨b, hbmem, k, sev, rfl⟩ := run_yolo_mem p res t l hrun d hd
  refine ⟨b, hbmem, ?_, ?_⟩
  · intro hnone
    show pyTitle (pyStrip ((res.names b.cls).getD ("class_" ++ natStr b.cls))) = _
    rw [hnone, Option.getD_none, class_fallback_title]
  · intro nmv hsome
    show pyTitle (pyStrip ((res.names b.cls).getD ("class_" ++ natStr b.cls))) = _
    rw [hsome, Option.getD_some]

/-- C6 amended witness: the demo after-image record carries the title-cased
fallback label for its unmapped class 9. -/
theorem run_yolo_class_label_witness :
    ∃ b ∈ demoAfter.boxes,
      (demoAfter.names b.cls = none → demoDamageA.type = "Class_" ++ natStr b.cls) ∧
      (∀ nmv, demoAfter.names b.cls = some nmv → demoDamageA.type = pyTitle (pyStrip nmv)) :=
  run_yolo_class_label demoPreds demoAfter "after" [demoDamageA] (by decide)
    demoDamageA (by decide)

/-- C10: the type label of every damage record is not the raw detector class
name as such but the result of stripping surrounding whitespace from it and
title-casing it (`pyTitle`, which upper-cases the first letter of each word
and lower-cases the rest); the same transformation applies whether the class
index was mapped by the lookup or fell back to the generic name. -/
theorem run_yolo_type_strip_title (p : Det → Option (List ℚ)) (res : YoloOut)
    (t : String) (l : List Damage) (hrun : run_yolo_on_image p res t = some l) :
    ∀ d ∈ l, ∃ b ∈ res.boxes,
      d.type = pyTitle (pyStrip ((res.names b.cls).getD ("class_" ++ natStr b.cls))) := by
  intro d hd
  obtain ⟨b, hbmem, k, sev, rfl⟩ := run_yolo_mem p res t l hrun d hd
  exact ⟨b, hbmem, rfl⟩

/-- C10 witness: the demo before-image record's label "Scratch Mark" is the
strip-and-titlecase of the mapped name " scratch mark ". -/
theorem run_yolo_type_strip_title_witness :
    ∃ b ∈ demoBefore.boxes,
      demoDamageB.type =
        pyTitle (pyStrip ((demoBefore.names b.cls).getD ("class_" ++ natStr b.cls))) :=
  run_yolo_type_strip_title demoPreds demoBefore "before" [demoDamageB] (by decide)
    demoDamageB (by decide)

/-- C4: whenever any step of the handler fails — writing either upload or any
exception inside the analysis — the response is exactly
`HTTPException(500, "AI analysis failed.")`; once the temporary paths are
bound, deletion is attempted for both existing temporary files whatever the
outcome of the request; and the outcomes of the two `os.remove` calls never
change the response (deletion errors are swallowed). -/
theorem analyze_endpoint_contract (w : RequestWorld) :
    ((w.writeBeforeOk = false ∨ w.writeAfterOk = false ∨ w.analyzeResult = none) →
      (analyze_endpoint w).1 =
        Except.error { status_code := 500, detail := "AI analysis failed." }) ∧
    (w.mkdirOk = true →
      (analyze_endpoint w).2 = (w.beforeFileExists, w.afterFileExists)) ∧
    (∀ rb ra : Bool,
      (analyze_endpoint { w with removeBeforeOk := rb, removeAfterOk := ra }).1 =
        (analyze_endpoint w).1) := by
  obtain ⟨mk, wb, wa, ar, bf, af, rb0, ra0⟩ := w
  refine ⟨?_, ?_, ?_⟩
  · intro hfail
    simp only at hfail
    cases mk <;> cases wb <;> cases wa <;> cases ar <;>
      simp_all [analyze_endpoint, endpointTry, endpointFinally]
  · intro hmk
    simp only at hmk
    subst hmk
    cases wb <;> cases wa <;> cases ar <;>
      simp [analyze_endpoint, endpointTry, endpointFinally]
  · intro rb ra
    cases mk <;> cases wb <;> cases wa <;> cases ar <;> rfl

/-- C4 witness: in the demo request environment the after-image write fails,
so the theorem yields the fixed 500 response, and deletion is attempted for
both existing temporary files. -/
theorem analyze_endpoint_contract_witness :
    (analyze_endpoint demoWorld).1 =
      Except.error { status_code := 500, detail := "AI analysis failed." } ∧
    (analyze_endpoint demoWorld).2 = (demoWorld.beforeFileExists, demoWorld.afterFileExists) :=
  ⟨(analyze_endpoint_contract demoWorld).1 (Or.inr (Or.inl rfl)),
   (analyze_endpoint_contract demoWorld).2.1 rfl⟩

/-- C5: on any prediction row of the three-class severity model, the adapter
returns the label of `SEVERITY_CLASSES` at the row's `np.argmax` index
together with the value there; the label is always a member of the fixed set
`{"minor", "moderate", "severe"}`, and the value at that index bounds every
entry of the row — with no lower bound required on it (no thresholding). -/
theorem predict_severity_top1 (preds : List ℚ) (hlen : preds.length = 3) :
    ∃ label conf, predict_severity preds = some (label, conf) ∧
      label ∈ SEVERITY_CLASSES ∧
      SEVERITY_CLASSES[npArgmax preds]? = some label ∧
      preds[npArgmax preds]? = some conf ∧
      ∀ v ∈ preds, v ≤ conf := by
  cases preds with
  | nil => simp at hlen
  | cons x xs =>
    obtain ⟨m, hm, hmax⟩ := npArgmax_spec (x :: xs) (by simp)
    obtain ⟨hidxlen, _⟩ := List.getElem?_eq_some.mp hm
    rw [hlen] at hidxlen
    have hidxS : npArgmax (x :: xs) < SEVERITY_CLASSES.length := by
      show npArgmax (x :: xs) < 3
      omega
    have hsev : SEVERITY_CLASSES[npArgmax (x :: xs)]? =
        some SEVERITY_CLASSES[npArgmax (x :: xs)] :=
      List.getElem?_eq_getElem hidxS
    refine ⟨SEVERITY_CLASSES[npArgmax (x :: xs)], m, ?_, List.getElem_mem hidxS, hsev, hm, ?_⟩
    · show predict_severity (x :: xs) = _
      simp only [predict_severity, hsev, hm]
    · intro v hv
      obtain ⟨k, hk⟩ := List.getElem?_of_mem hv
      exact hmax k v hk

/-- C5 witness: a low-confidence row (top probability 34%) still yields its
argmax label "minor" with all the stated properties — no thresholding. -/
theorem predict_severity_top1_witness :
    ∃ label conf, predict_severity [34/100, 33/100, 33/100] = some (label, conf) ∧
      label ∈ SEVERITY_CLASSES ∧
      SEVERITY_CLASSES[npArgmax [34/100, 33/100, 33/100]]? = some label ∧
      [(34 : ℚ)/100, 33/100, 33/100][npArgmax [(34 : ℚ)/100, 33/100, 33/100]]? = some conf ∧
      ∀ v ∈ [(34 : ℚ)/100, 33/100, 33/100], v ≤ conf :=
  predict_severity_top1 [34/100, 33/100, 33/100] (by decide)

/-- C9: for any source image and any bounding box with `x1 = x2` or `y1 = y2`,
the zero-area crop makes the resize step fail, and `crop_patch` — which
installs no handler — returns that very error to its caller instead of
catching it or producing a default patch. -/
theorem crop_patch_zero_area (img : PImage) (x1 y1 x2 y2 : ℚ)
    (hz : x1 = x2 ∨ y1 = y2) :
    ∃ e, pilResize (pilCrop img x1 y1 x2 y2) IMG_SIZE = Except.error e ∧
      crop_patch img (x1, y1, x2, y2) = Except.error e := by
  have hres : pilResize (pilCrop img x1 y1 x2 y2) IMG_SIZE =
      Except.error "cannot resize zero-area image" := by
    unfold pilResize pilCrop
    rcases hz with rfl | rfl <;> simp
  exact ⟨_, hres, by simp only [crop_patch, hres]⟩

/-- C9 witness: a degenerate box with `x1 = x2` on a 10×10 image. -/
theorem crop_patch_zero_area_witness :
    ∃ e, pilResize (pilCrop { width := 10, height := 10 } 2 1 2 5) IMG_SIZE =
        Except.error e ∧
      crop_patch { width := 10, height := 10 } (2, 1, 2, 5) = Except.error e :=
  crop_patch_zero_area { width := 10, height := 10 } 2 1 2 5 (Or.inl rfl)

end VehicleDamage
